import Mathlib

/-!
Verification of the extraction scheduler and extractor steps of the
`drivers/cclib_driver.py` component.

The Python source is embedded shallowly:

* an extractor method is an `ExtractorStep` (name, `dependencies`, `provides`);
* `ExtractorBase._construct_method_list` is `ExtractorBase.constructMethodList`,
  built from the round function `performRound` (the inner `for` loop) and the
  outer `while` loop `constructLoop`;
* `ExtractorBase._all_methods` is `ExtractorBase.allMethods` (the instance
  attribute `self._method_list` is threaded explicitly as an
  `Option (List ExtractorStep)` cache, `none` standing for Python `None`);
* `ExtractorBase.extract` is `ExtractorBase.extract`;
* the concrete extractor methods of `GenericExtractor` and `NTOExtractor` are
  modelled as functions on an explicit `ParsedDoc` record (the cclib parsed
  document, each attribute an `Option` so that `hasattr` is `Option.isSome`
  and reading an absent attribute is an `AttributeError`), Python floats as
  rationals, Python dicts as insertion-ordered association lists.

A raising step is modelled as returning its error without the writes it made
before raising (the caller of a raising Python `extract` never observes the
mapping, so this difference is not observable through the interface under
study).

Rational-number arithmetic: some core `Rat` operations are `irreducible`;
they are made semireducible locally so that concrete runs evaluate.
-/

attribute [local semireducible] Rat.ofScientific Rat.mul Rat.inv Rat.add Rat.sub

/-- Conversion constant from the source, line 23: `EV_TO_HARTREE = 1.0 / 27.21138505`. -/
def EV_TO_HARTREE : ℚ := 1.0 / 27.21138505

/-- Conversion constant from the source, line 24: `HARTREE_TO_EV = 27.21138602`. -/
def HARTREE_TO_EV : ℚ := 27.21138602

/-- Conversion constant from the source, line 26: `HARTREE_TO_RECCM = 219474.6313705`. -/
def HARTREE_TO_RECCM : ℚ := 219474.6313705

/-- Conversion constant from the source, line 27: `RECCM_TO_HARTREE = 1 / HARTREE_TO_RECCM`. -/
def RECCM_TO_HARTREE : ℚ := 1 / HARTREE_TO_RECCM

/-- Constant from the source, line 29: `SQRT_2 = 1.414213562373095`. -/
def SQRT_2 : ℚ := 1.414213562373095

/-- An extractor method as tagged by the `extractor` / `property_extractor`
decorators: its name (`dir` identity), its `dependencies` list and its
`provides` list. -/
structure ExtractorStep where
  name : String
  dependencies : List String
  provides : List String
deriving DecidableEq

/-- One round of the dependency-resolution loop of
`ExtractorBase._construct_method_list` (source lines 136-142): scan the
unprocessed methods in order; a method whose dependencies are all in the
current satisfied set is appended to the round and its `provides` are added
to the satisfied set immediately (line 142 runs inside the scan).  Returns
the methods placed this round and the updated satisfied set. -/
def performRound (provides : List String) : List ExtractorStep → List ExtractorStep × List String
  | [] => ([], provides)
  | m :: rest =>
    if m.dependencies.all (fun d => provides.contains d) then
      let r := performRound (provides ++ m.provides) rest
      (m :: r.1, r.2)
    else performRound provides rest

/-- The outer `while method_added:` loop of source lines 134-146, with an
explicit fuel argument.  Each non-empty round removes at least one method
from the unprocessed list (Python `list.remove`, i.e. `List.diff`), so fuel
`unprocessed.length + 1` always suffices; `constructLoop` returns the
concatenated rounds, the methods left unprocessed, and the final satisfied
set. -/
def constructLoop : Nat → List ExtractorStep → List String →
    List ExtractorStep × List ExtractorStep × List String
  | 0, unprocessed, provides => ([], unprocessed, provides)
  | fuel + 1, unprocessed, provides =>
    if (performRound provides unprocessed).1.isEmpty then ([], unprocessed, provides)
    else
      ((performRound provides unprocessed).1 ++
        (constructLoop fuel (unprocessed.diff (performRound provides unprocessed).1)
          (performRound provides unprocessed).2).1,
       (constructLoop fuel (unprocessed.diff (performRound provides unprocessed).1)
          (performRound provides unprocessed).2).2.1,
       (constructLoop fuel (unprocessed.diff (performRound provides unprocessed).1)
          (performRound provides unprocessed).2).2.2)

/-- The error payload of source lines 148-156: every dependency declared by
any method that is not in the final satisfied set. -/
def missingDependencies (steps : List ExtractorStep) (provides : List String) : List String :=
  ((steps.flatMap ExtractorStep.dependencies).dedup).filter (fun d => !(provides.contains d))

/-- Full result of one call of `ExtractorBase._construct_method_list` starting
from `self._method_list = []`: the rounds placed (this is the value left in
`self._method_list`, also when the call raises), the unprocessed remainder and
the final satisfied set. -/
def ExtractorBase.constructFull (steps : List ExtractorStep) :
    List ExtractorStep × List ExtractorStep × List String :=
  constructLoop (steps.length + 1) steps []

/-- `ExtractorBase._construct_method_list` (source lines 125-156) as a value:
the execution plan on success, or the `RuntimeError` payload of line 155 when
methods remain unprocessed. -/
def ExtractorBase.constructMethodList (steps : List ExtractorStep) :
    Except (List String) (List ExtractorStep) :=
  match (ExtractorBase.constructFull steps).2.1 with
  | [] => Except.ok (ExtractorBase.constructFull steps).1
  | _ :: _ =>
    Except.error (missingDependencies steps (ExtractorBase.constructFull steps).2.2)

/-- The validity property of an execution plan: scanning the list left to
right with an accumulating satisfied set, every step's dependencies are
already satisfied when the step is reached. -/
def ChainOk : List String → List ExtractorStep → Prop
  | _, [] => True
  | provides, m :: rest =>
    (∀ d ∈ m.dependencies, d ∈ provides) ∧ ChainOk (provides ++ m.provides) rest

instance instDecidableChainOk : (provides : List String) → (l : List ExtractorStep) →
    Decidable (ChainOk provides l)
  | _, [] => Decidable.isTrue trivial
  | provides, m :: rest =>
    have : Decidable (ChainOk (provides ++ m.provides) rest) :=
      instDecidableChainOk (provides ++ m.provides) rest
    inferInstanceAs (Decidable (_ ∧ _))

/-- Values stored in the extraction result mapping: Python `None`, booleans,
integers, floats (modelled as rationals), strings, lists and dicts. -/
inductive Value where
  | vnone
  | bool (b : Bool)
  | int (n : Int)
  | rat (q : ℚ)
  | str (s : String)
  | list (l : List Value)
  | dict (d : List (String × Value))

/-- Python truthiness of a `Value` (`if target['restricted']:` and similar). -/
def Value.truthy : Value → Bool
  | Value.vnone => false
  | Value.bool b => b
  | Value.int n => n != 0
  | Value.rat q => q != 0
  | Value.str s => s != ""
  | Value.list l => !l.isEmpty
  | Value.dict d => !d.isEmpty

/-- The extraction result mapping: a Python dict from string keys to values,
modelled as an insertion-ordered association list with unique keys. -/
abbrev ResultMap := List (String × Value)

/-- Python dict assignment `d[k] = v`: overwrite in place if the key exists,
append otherwise. -/
def dictSet (d : ResultMap) (k : String) (v : Value) : ResultMap :=
  if d.any (fun p => p.1 == k) then
    d.map (fun p => if p.1 == k then (k, v) else p)
  else d ++ [(k, v)]

/-- Python dict lookup `d[k]` / `k in d`, as an `Option`. -/
def dictGet (d : ResultMap) (k : String) : Option Value :=
  (d.find? (fun p => p.1 == k)).map (fun p => p.2)

/-- The keys of a result mapping, in insertion order. -/
def dictKeys (d : ResultMap) : List String :=
  d.map (fun p => p.1)

/-- Errors an individual extractor method can raise while running. -/
inductive RunError where
  | attributeError (attr : String)
  | keyError (key : String)
  | indexError
  | typeError
  | valueError
deriving DecidableEq

/-- The metadata attribute of a cclib parsed document: an optional `success`
entry (`metadata.get('success', False)` reads it with default `False`). -/
structure CcMetadata where
  success : Option Bool
deriving DecidableEq

/-- The cclib parsed document, restricted to the attributes the extractor
methods in the source touch.  Every attribute is optional: `hasattr` is
`Option.isSome`, and reading an absent attribute raises `AttributeError`.
An excited-state entry of `etsecs` is `((from_mo, from_spin), (to_mo,
to_spin), coefficient)`.  Python floats are modelled as rationals. -/
structure ParsedDoc where
  metadata : Option CcMetadata := none
  charge : Option Int := none
  mult : Option Int := none
  natom : Option Int := none
  nbasis : Option Int := none
  nmo : Option Int := none
  moenergies : Option (List (List ℚ)) := none
  mosyms : Option (List (List String)) := none
  nelectrons : Option Int := none
  atomnos : Option (List Int) := none
  optstatus : Option (List Int) := none
  atomcoords : Option (List (List (List ℚ))) := none
  converged_geometries : Option (List (List (List ℚ))) := none
  scfenergies : Option (List ℚ) := none
  etenergies : Option (List ℚ) := none
  etsyms : Option (List String) := none
  etoscs : Option (List ℚ) := none
  etsecs : Option (List (List ((Nat × Nat) × (Nat × Nat) × ℚ))) := none
  homos : Option (List Int) := none

/-- Python list indexing `l[n]` for a non-negative literal index:
`IndexError` when out of range. -/
def listIndex {α : Type} (l : List α) (n : Nat) : Except RunError α :=
  match l.get? n with
  | some v => Except.ok v
  | none => Except.error RunError.indexError

/-- Python list indexing `l[-1]`: the last element, `IndexError` on an empty
list. -/
def listLast {α : Type} (l : List α) : Except RunError α :=
  match l.getLast? with
  | some v => Except.ok v
  | none => Except.error RunError.indexError

/-- Python list indexing `l[i]` with an arbitrary integer index: negative
indices count from the end, and an index out of `[-len, len)` raises
`IndexError`. -/
def pyIndex {α : Type} (l : List α) (i : Int) : Except RunError α :=
  let j : Int := if i < 0 then i + l.length else i
  if j < 0 then Except.error RunError.indexError
  else match l.get? j.toNat with
    | some v => Except.ok v
    | none => Except.error RunError.indexError

/-- Coercion of a result-mapping value into a number for Python arithmetic;
non-numeric operands raise `TypeError` (e.g. `None - 1`). -/
def valueToRat : Value → Except RunError ℚ
  | Value.int n => Except.ok (n : ℚ)
  | Value.rat q => Except.ok q
  | _ => Except.error RunError.typeError

/-- Reading `target[k]` from the result mapping: `KeyError` when absent. -/
def targetGet (t : ResultMap) (k : String) : Except RunError Value :=
  match dictGet t k with
  | some v => Except.ok v
  | none => Except.error (RunError.keyError k)

/-- Model of the external `periodictable.elements[i].symbol` lookup (the
periodic-table library is out of scope); only hydrogen appears in the
concrete documents of this file. -/
def elementSymbol : Int → String
  | 1 => "H"
  | _ => "X"

/-- `ExtractorBase._is_success` (source lines 168-171): `False` when the
document has no `metadata` attribute, otherwise `metadata.get('success',
False)`. -/
def ExtractorBase.isSuccess (p : ParsedDoc) : Bool :=
  match p.metadata with
  | none => false
  | some md => md.success.getD false

/-- `ExtractorBase._all_methods` (source lines 163-166), with the instance
state `self._method_list` threaded explicitly: `none` is Python `None`.  The
guard is Python falsiness (`if not self._method_list:`), so a cached *empty*
list triggers reconstruction while a cached non-empty list — even the partial
list left behind by a failed construction — is returned as is.  Returns the
plan or the construction error, the new cache, and whether construction ran. -/
def ExtractorBase.allMethods (steps : List ExtractorStep) (cache : Option (List ExtractorStep)) :
    Except (List String) (List ExtractorStep) × Option (List ExtractorStep) × Bool :=
  match cache with
  | some (m :: rest) => (Except.ok (m :: rest), some (m :: rest), false)
  | _ =>
    match (ExtractorBase.constructFull steps).2.1 with
    | [] =>
      (Except.ok (ExtractorBase.constructFull steps).1,
       some (ExtractorBase.constructFull steps).1, true)
    | _ :: _ =>
      (Except.error (missingDependencies steps (ExtractorBase.constructFull steps).2.2),
       some (ExtractorBase.constructFull steps).1, true)

/-- The execution loop of `ExtractorBase.extract` (source lines 185-186):
run each method of the plan in order against the parsed document, threading
the shared result mapping; a raising method aborts the loop. -/
def runPlan (run : ExtractorStep → ParsedDoc → ResultMap → Except RunError ResultMap)
    (p : ParsedDoc) : List ExtractorStep → ResultMap → Except RunError ResultMap
  | [], t => Except.ok t
  | m :: rest, t =>
    match run m p t with
    | Except.error e => Except.error e
    | Except.ok t2 => runPlan run p rest t2

/-- The failure modes of `ExtractorBase.extract`: the success gate of lines
179-182, a dependency-resolution failure from plan construction, or an error
raised by an individual step. -/
inductive ExtractError where
  | computationNotSuccessful
  | dependencyResolution (missing : List String)
  | stepError (e : RunError)

/-- `ExtractorBase.extract` (source lines 173-188) for an already parsed
document: check the success gate, construct or fetch the cached plan, then
run every method against a fresh empty result mapping.  The method bodies are
supplied by `run`; the instance state is threaded as in
`ExtractorBase.allMethods`, and the third component records whether plan
construction ran during this call. -/
def ExtractorBase.extract (run : ExtractorStep → ParsedDoc → ResultMap → Except RunError ResultMap)
    (steps : List ExtractorStep) (cache : Option (List ExtractorStep)) (p : ParsedDoc) :
    Except ExtractError ResultMap × Option (List ExtractorStep) × Bool :=
  if ExtractorBase.isSuccess p then
    match ExtractorBase.allMethods steps cache with
    | (Except.error e, cache2, ran) => (Except.error (ExtractError.dependencyResolution e), cache2, ran)
    | (Except.ok plan, cache2, ran) =>
      match runPlan run p plan [] with
      | Except.error e => (Except.error (ExtractError.stepError e), cache2, ran)
      | Except.ok res => (Except.ok res, cache2, ran)
  else (Except.error ExtractError.computationNotSuccessful, cache, false)

/-- Body of the `property_extractor` wrapper (source lines 94-99): copy the
attribute into the output key, `None` when absent. -/
def propertyExtract (attr : Option Int) (outputKey : String) (t : ResultMap) : ResultMap :=
  match attr with
  | some v => dictSet t outputKey (Value.int v)
  | none => dictSet t outputKey Value.vnone

/-- `GenericExtractor._extractor_restricted` (source lines 210-219). -/
def GenericExtractor.runRestricted (p : ParsedDoc) (t : ResultMap) : Except RunError ResultMap :=
  match p.moenergies with
  | none => Except.ok (dictSet t "restricted" Value.vnone)
  | some mo =>
    if mo.length = 1 then Except.ok (dictSet t "restricted" (Value.bool true))
    else Except.ok (dictSet t "restricted" (Value.bool false))

/-- `GenericExtractor._extractor_mos` (source lines 221-251).  The nested
`mos` dict is built and written to `target['mos']`; the two entries of
`mo_operations` are unrolled (energies scaled by `EV_TO_HARTREE`, symmetry
labels copied), each reading row 0, or rows 0 and 1 when the calculation is
not restricted. -/
def GenericExtractor.runMos (p : ParsedDoc) (t : ResultMap) : Except RunError ResultMap := do
  let restricted ← targetGet t "restricted"
  let numMos : Value := match p.nmo with
    | some n => Value.int n
    | none => Value.vnone
  let mos0 : ResultMap := dictSet [] "num_mos" numMos
  let mos1 ← match p.moenergies with
    | none => pure mos0
    | some mo =>
      if restricted.truthy then do
        let row ← listIndex mo 0
        pure (dictSet mos0 "energies"
          (Value.list (row.map (fun v => Value.rat (v * EV_TO_HARTREE)))))
      else do
        let row0 ← listIndex mo 0
        let row1 ← listIndex mo 1
        pure (dictSet
          (dictSet mos0 "alpha_energies"
            (Value.list (row0.map (fun v => Value.rat (v * EV_TO_HARTREE)))))
          "beta_energies"
          (Value.list (row1.map (fun v => Value.rat (v * EV_TO_HARTREE)))))
  let mos2 ← match p.mosyms with
    | none => pure mos1
    | some ms =>
      if restricted.truthy then do
        let row ← listIndex ms 0
        pure (dictSet mos1 "symmetric_group" (Value.list (row.map Value.str)))
      else do
        let row0 ← listIndex ms 0
        let row1 ← listIndex ms 1
        pure (dictSet
          (dictSet mos1 "alpha_symmetric_group" (Value.list (row0.map Value.str)))
          "beta_symmetric_group" (Value.list (row1.map Value.str)))
  pure (dictSet t "mos" (Value.dict mos2))

/-- `GenericExtractor._extractor_num_electrons` (source lines 253-257). -/
def GenericExtractor.runNumElectrons (p : ParsedDoc) (t : ResultMap) : Except RunError ResultMap :=
  let t1 := dictSet t "num_electrons" Value.vnone
  match p.nelectrons with
  | some n => Except.ok (dictSet t1 "num_electrons" (Value.int n))
  | none => Except.ok t1

/-- `GenericExtractor._extract_atom_data` (source lines 259-272): despite
providing `atom_symbols` and `atom_numbers`, the method writes a nested dict
under the key `atoms`. -/
def GenericExtractor.runAtomData (p : ParsedDoc) (t : ResultMap) : Except RunError ResultMap :=
  let atoms0 : ResultMap := dictSet (dictSet [] "numbers" Value.vnone) "symbols" Value.vnone
  match p.atomnos with
  | none => Except.ok (dictSet t "atoms" (Value.dict atoms0))
  | some ns =>
    let atoms1 := dictSet atoms0 "numbers" (Value.list (ns.map Value.int))
    let atoms2 := dictSet atoms1 "symbols"
      (Value.list (ns.map (fun i => Value.str (elementSymbol i))))
    Except.ok (dictSet t "atoms" (Value.dict atoms2))

/-- Write `target['atoms'][k] = v` (the nested-dict mutation of source lines
279 and 286): `KeyError` when `atoms` is missing, `TypeError` when it is not
a dict. -/
def setAtomsEntry (t : ResultMap) (k : String) (v : Value) : Except RunError ResultMap :=
  match dictGet t "atoms" with
  | some (Value.dict a) => Except.ok (dictSet t "atoms" (Value.dict (dictSet a k v)))
  | some _ => Except.error RunError.typeError
  | none => Except.error (RunError.keyError "atoms")

/-- A list of atom coordinate rows as a result value. -/
def coordsValue (rows : List (List ℚ)) : Value :=
  Value.list (rows.map (fun r => Value.list (r.map Value.rat)))

/-- `GenericExtractor._extractor_optimizations` (source lines 274-289).  Note
that only `optstatus` is guarded by `hasattr`: the branch without it reads
`parsed.atomcoords`, the branch with it reads `parsed.converged_geometries`,
both unchecked. -/
def GenericExtractor.runOptimizations (p : ParsedDoc) (t : ResultMap) :
    Except RunError ResultMap := do
  match p.optstatus with
  | none => do
    let t1 := dictSet t "optimization_steps" (Value.int 0)
    let coords ← match p.atomcoords with
      | some cs => pure cs
      | none => Except.error (RunError.attributeError "atomcoords")
    let last ← listLast coords
    setAtomsEntry t1 "coordinates" (coordsValue last)
  | some st => do
    let t1 := dictSet t "optimization_steps" (Value.int st.length)
    let geoms ← match p.converged_geometries with
      | some gs => pure gs
      | none => Except.error (RunError.attributeError "converged_geometries")
    let last ← listLast geoms
    setAtomsEntry t1 "coordinates" (coordsValue last)

/-- `GenericExtractor._extractor_scf_energy` (source lines 291-298): the last
SCF energy, converted from eV to Hartree. -/
def GenericExtractor.runScfEnergy (p : ParsedDoc) (t : ResultMap) : Except RunError ResultMap := do
  let t1 := dictSet t "scf_energy" Value.vnone
  match p.scfenergies with
  | none => pure t1
  | some es => do
    let last ← listLast es
    pure (dictSet t1 "scf_energy" (Value.rat (last * EV_TO_HARTREE)))

/-- The `['A', 'B'][spin]` lookup of source lines 372 and 374. -/
def spinLabel (s : Nat) : Except RunError String :=
  listIndex ["A", "B"] s

/-- The loop body of `GenericExtractor._extractor_excited_states` (source
lines 349-387) for one state index: read the symmetry (unchecked attribute
`etsyms`), split it into multiplicity and symmetry group (`ValueError` unless
exactly one dash), read oscillator strength, excitation energy and orbital
contributions (unchecked attributes `etoscs`, `etsecs`), normalizing
restricted coefficients back by `SQRT_2`.  Returns the lower-cased
multiplicity and the state record. -/
def GenericExtractor.processExcitedState (p : ParsedDoc) (t : ResultMap) (etes : List ℚ)
    (idx : Int) : Except RunError (String × Value) := do
  let syms ← match p.etsyms with
    | some ss => pure ss
    | none => Except.error (RunError.attributeError "etsyms")
  let sym ← pyIndex syms idx
  let parts := sym.splitOn "-"
  match parts with
  | [multRaw, symGroup] => do
    let mult := multRaw.toLower
    let oscs ← match p.etoscs with
      | some os => pure os
      | none => Except.error (RunError.attributeError "etoscs")
    let osc ← pyIndex oscs idx
    let ete ← pyIndex etes idx
    let exciE := ete * RECCM_TO_HARTREE
    let secs ← match p.etsecs with
      | some ss => pure ss
      | none => Except.error (RunError.attributeError "etsecs")
    let orbitalsRaw ← pyIndex secs idx
    let restricted ← targetGet t "restricted"
    let orbitals ← if restricted.truthy then
        pure (orbitalsRaw.map (fun item => Value.dict
          (dictSet (dictSet (dictSet [] "from" (Value.int (item.1.1 + 1)))
            "to" (Value.int (item.2.1.1 + 1)))
            "coefficient" (Value.rat (item.2.2 / SQRT_2)))))
      else
        orbitalsRaw.mapM (fun item => do
          let fromLabel ← spinLabel item.1.2
          let toLabel ← spinLabel item.2.1.2
          pure (Value.dict
            (dictSet (dictSet (dictSet [] "from"
              (Value.str (toString (item.1.1 + 1) ++ fromLabel)))
              "to" (Value.str (toString (item.2.1.1 + 1) ++ toLabel)))
              "coefficient" (Value.rat item.2.2))))
    pure (mult, Value.dict
      (dictSet (dictSet (dictSet (dictSet (dictSet [] "multiplicity" (Value.str mult))
        "symmetric_group" (Value.str symGroup))
        "oscillator_strength" (Value.rat osc))
        "excitation_energy" (Value.rat exciE))
        "orbitals" (Value.list orbitals)))
  | _ => Except.error RunError.valueError

/-- The state-index range of source lines 335-347: with a truthy (non-zero)
`optimization_steps` count `n`, the last `int(len(etenergies) / n)` states;
otherwise all of them.  `Int.tdiv` truncates toward zero exactly as Python
`int()` applied to the true quotient. -/
def excitedIndices (optVal : Value) (numEt : Nat) : Except RunError (List Int) :=
  if optVal.truthy then
    match optVal with
    | Value.int n =>
      let numExcited : Int := Int.tdiv numEt n
      let start : Int := (n - 1) * numExcited
      Except.ok ((List.range numExcited.toNat).map (fun k => start + (k : Int)))
    | _ => Except.error RunError.typeError
  else Except.ok ((List.range numEt).map (fun k => (k : Int)))

/-- `GenericExtractor._extractor_excited_states` (source lines 314-387). -/
def GenericExtractor.runExcitedStates (p : ParsedDoc) (t : ResultMap) :
    Except RunError ResultMap := do
  let ex0 : ResultMap :=
    dictSet (dictSet (dictSet [] "singlet" (Value.list []))
      "triplet" (Value.list [])) "unknown" (Value.list [])
  match p.etenergies with
  | none => pure (dictSet t "excited_states" (Value.dict ex0))
  | some etes => do
    let optVal ← targetGet t "optimization_steps"
    let idxs ← excitedIndices optVal etes.length
    let finalStates ← idxs.foldlM (fun ex idx => do
      let res ← GenericExtractor.processExcitedState p t etes idx
      let key := if (dictGet ex res.1).isSome then res.1 else "unknown"
      match dictGet ex key with
      | some (Value.list l) => pure (dictSet ex key (Value.list (l ++ [res.2])))
      | _ => Except.error RunError.typeError) ex0
    pure (dictSet t "excited_states" (Value.dict finalStates))

/-- `GenericExtractor.extract_homo_index` (source lines 389-397): Python true
division makes all three outputs floats. -/
def GenericExtractor.runHomoIndex (_p : ParsedDoc) (t : ResultMap) :
    Except RunError ResultMap := do
  let multVal ← targetGet t "multiplicity"
  let mult ← valueToRat multVal
  let unpaired := (mult - 1) / 2
  let t1 := dictSet t "unpaired_electrons" (Value.rat unpaired)
  let neVal ← targetGet t1 "num_electrons"
  let ne ← valueToRat neVal
  let homo := (ne - unpaired) / 2 + unpaired
  let t2 := dictSet t1 "homo_index" (Value.rat homo)
  pure (dictSet t2 "lumo_index" (Value.rat (homo + 1)))

/-- `NTOExtractor.NTO_CRITERIA` (source line 403). -/
def NTO_CRITERIA : ℚ := 0.01

/-- The `while contribution > self.NTO_CRITERIA` loop of
`NTOExtractor._extract_nto_coefficients` (source lines 419-428).  Each
iteration records `(orbit_number + 1, exci_orbit + 1, contribution)`,
decrements the occupied orbital index, increments the excited one and reads
the next energy with Python (negative-index) list semantics; the loop leaves
via the criteria test or via the `IndexError` raised once the index drops
below `-len`. -/
def ntoLoopGo (mo : List ℚ) (orbit exci : Int) (c : ℚ) (acc : List (Int × Int × ℚ)) :
    Except RunError (List (Int × Int × ℚ)) :=
  if c > NTO_CRITERIA then
    match h : pyIndex mo (orbit - 1) with
    | Except.error e => Except.error e
    | Except.ok v =>
      ntoLoopGo mo (orbit - 1) (exci + 1) (v * EV_TO_HARTREE)
        (acc ++ [(orbit + 1, exci + 1, c)])
  else Except.ok acc
termination_by (orbit + mo.length).toNat
decreasing_by
  have hb : -(mo.length : Int) ≤ orbit - 1 := by
    unfold pyIndex at h
    by_cases hi : orbit - 1 < 0
    · simp only [hi, if_true] at h
      by_cases hj : orbit - 1 + (mo.length : Int) < 0
      · simp [hj] at h
      · omega
    · omega
  omega

/-- The same loop instrumented with an iteration budget: `none` means the
budget was exhausted before the loop finished. -/
def ntoLoopFuel (mo : List ℚ) : Nat → Int → Int → ℚ → List (Int × Int × ℚ) →
    Option (Except RunError (List (Int × Int × ℚ)))
  | fuel, orbit, exci, c, acc =>
    if c > NTO_CRITERIA then
      match pyIndex mo (orbit - 1) with
      | Except.error e => some (Except.error e)
      | Except.ok v =>
        match fuel with
        | 0 => none
        | n + 1 =>
          ntoLoopFuel mo n (orbit - 1) (exci + 1) (v * EV_TO_HARTREE)
            (acc ++ [(orbit + 1, exci + 1, c)])
    else some (Except.ok acc)

/-- `NTOExtractor._extract_nto_coefficients` (source lines 405-430).  Only
`moenergies` is `hasattr`-guarded; `homos` is read unchecked. -/
def NTOExtractor.extractNtoCoefficients (p : ParsedDoc) (t : ResultMap) :
    Except RunError ResultMap := do
  let t1 := dictSet t "nto_contributions" Value.vnone
  match p.moenergies with
  | none => pure t1
  | some moe => do
    let hs ← match p.homos with
      | some hs => pure hs
      | none => Except.error (RunError.attributeError "homos")
    let homo ← listIndex hs 0
    let mo0 ← listIndex moe 0
    let c0 ← pyIndex mo0 homo
    let entries ← ntoLoopGo mo0 homo (homo + 1) (c0 * EV_TO_HARTREE) []
    pure (dictSet t1 "nto_contributions"
      (Value.list (entries.map (fun e => Value.dict
        (dictSet (dictSet (dictSet [] "from" (Value.int e.1))
          "to" (Value.int e.2.1))
          "contribution" (Value.rat e.2.2))))))

/-- The `GenericExtractor` step declarations, in the alphabetical order that
`dir(self)` yields them (source lines 194-397). -/
def stepAtomData : ExtractorStep :=
  ⟨"_extract_atom_data", [], ["atom_symbols", "atom_numbers"]⟩

def stepCharge : ExtractorStep := ⟨"_extractor_charge", [], ["charge"]⟩

def stepExcitedStates : ExtractorStep :=
  ⟨"_extractor_excited_states", ["scf_energy", "restricted", "optimization"], []⟩

def stepMos : ExtractorStep := ⟨"_extractor_mos", ["restricted"], ["mos"]⟩

def stepMultiplicity : ExtractorStep := ⟨"_extractor_multiplicity", [], ["multiplicity"]⟩

def stepNumAtoms : ExtractorStep := ⟨"_extractor_num_atoms", [], ["num_atoms"]⟩

def stepNumBasisSets : ExtractorStep := ⟨"_extractor_num_basis_sets", [], ["num_basis_sets"]⟩

def stepNumElectrons : ExtractorStep := ⟨"_extractor_num_electrons", [], ["num_electrons"]⟩

def stepOptimizations : ExtractorStep :=
  ⟨"_extractor_optimizations", ["atom_symbols"], ["optimization", "atom_coordinates"]⟩

def stepRestricted : ExtractorStep := ⟨"_extractor_restricted", [], ["restricted"]⟩

def stepScfEnergy : ExtractorStep := ⟨"_extractor_scf_energy", [], ["scf_energy"]⟩

def stepHomoIndex : ExtractorStep :=
  ⟨"extract_homo_index", ["multiplicity", "num_electrons"],
    ["homo_index", "lumo_index", "unpaired_electrons"]⟩

/-- The step collection of `GenericExtractor` as
`_get_all_extractor_methods` discovers it (sorted by method name). -/
def genericSteps : List ExtractorStep :=
  [stepAtomData, stepCharge, stepExcitedStates, stepMos, stepMultiplicity,
   stepNumAtoms, stepNumBasisSets, stepNumElectrons, stepOptimizations,
   stepRestricted, stepScfEnergy, stepHomoIndex]

/-- Dispatch from a `GenericExtractor` step to its body. -/
def genericRun (s : ExtractorStep) (p : ParsedDoc) (t : ResultMap) :
    Except RunError ResultMap :=
  if s.name = "_extract_atom_data" then GenericExtractor.runAtomData p t
  else if s.name = "_extractor_charge" then Except.ok (propertyExtract p.charge "charge" t)
  else if s.name = "_extractor_excited_states" then GenericExtractor.runExcitedStates p t
  else if s.name = "_extractor_mos" then GenericExtractor.runMos p t
  else if s.name = "_extractor_multiplicity" then
    Except.ok (propertyExtract p.mult "multiplicity" t)
  else if s.name = "_extractor_num_atoms" then
    Except.ok (propertyExtract p.natom "num_atoms" t)
  else if s.name = "_extractor_num_basis_sets" then
    Except.ok (propertyExtract p.nbasis "num_basis_sets" t)
  else if s.name = "_extractor_num_electrons" then GenericExtractor.runNumElectrons p t
  else if s.name = "_extractor_optimizations" then GenericExtractor.runOptimizations p t
  else if s.name = "_extractor_restricted" then GenericExtractor.runRestricted p t
  else if s.name = "_extractor_scf_energy" then GenericExtractor.runScfEnergy p t
  else if s.name = "extract_homo_index" then GenericExtractor.runHomoIndex p t
  else Except.ok t

/-- The step collection of `NTOExtractor` (source lines 400-430). -/
def stepNtoCoefficients : ExtractorStep :=
  ⟨"_extract_nto_coefficients", [], ["nto_contributions"]⟩

def ntoSteps : List ExtractorStep := [stepNtoCoefficients]

/-- Dispatch from an `NTOExtractor` step to its body. -/
def ntoRun (s : ExtractorStep) (p : ParsedDoc) (t : ResultMap) : Except RunError ResultMap :=
  if s.name = "_extract_nto_coefficients" then NTOExtractor.extractNtoCoefficients p t
  else Except.ok t

/-- Synthetic step set from the spec's P1 test: `A` provides `x`, `B` needs
`x` and provides `y`, `C` needs `y`. -/
def stepSynthA : ExtractorStep := ⟨"A", [], ["x"]⟩

def stepSynthB : ExtractorStep := ⟨"B", ["x"], ["y"]⟩

def stepSynthC : ExtractorStep := ⟨"C", ["y"], []⟩

/-- Synthetic cyclic step set from the spec's P2 test. -/
def stepCycA : ExtractorStep := ⟨"A", ["y"], ["x"]⟩

def stepCycB : ExtractorStep := ⟨"B", ["x"], ["y"]⟩

/-- Synthetic step set with a missing provider: `B` needs `z`, which no step
provides. -/
def stepMissB : ExtractorStep := ⟨"B", ["z"], []⟩

/-- A method body used with the synthetic step sets: write the step's own
name into the result mapping, so that the set of steps actually run is
observable in the result. -/
def runWriteName (s : ExtractorStep) (_p : ParsedDoc) (t : ResultMap) :
    Except RunError ResultMap :=
  Except.ok (dictSet t s.name (Value.int 1))

/-- A parsed document that passes the success gate and exposes nothing else. -/
def goodDoc : ParsedDoc := { metadata := some ⟨some true⟩ }

/-- A parsed document whose metadata lacks the `success` entry. -/
def noSuccessDoc : ParsedDoc := { metadata := some ⟨none⟩ }

/-- A successful document exercising every `GenericExtractor` step: one
hydrogen atom, a single-geometry (non-optimization) calculation with one set
of molecular-orbital energies and no excited states. -/
def demoDoc : ParsedDoc :=
  { metadata := some ⟨some true⟩
    charge := some 0
    mult := some 1
    natom := some 1
    nbasis := some 2
    nmo := some 2
    moenergies := some [[-10, 1]]
    nelectrons := some 2
    atomnos := some [1]
    atomcoords := some [[[0, 0, 0]]]
    scfenergies := some [-27.21138505]
    homos := some [0] }

/-- A document for the unit-conversion step: a single restricted set of
molecular-orbital energies. -/
def mosDoc (es : List ℚ) : ParsedDoc :=
  { metadata := some ⟨some true⟩, moenergies := some [es] }

/-- A document exposing `moenergies` but not `homos`. -/
def noHomosDoc : ParsedDoc :=
  { metadata := some ⟨some true⟩, moenergies := some [[5]] }

/-- A permutation decomposition of a list along a sublist and the list
difference that `Python list.remove` leaves behind. -/
theorem perm_append_diff_of_sublist {α : Type} [DecidableEq α] {r u : List α}
    (h : r.Sublist u) : u.Perm (r ++ u.diff r) :=
  (List.subperm_append_diff_self_of_count_le (fun x _ => h.count_le x)).symm

/-- The methods a round places form a sublist of the unprocessed list. -/
theorem performRound_sublist : ∀ (u : List ExtractorStep) (p : List String),
    (performRound p u).1.Sublist u
  | [], _ => List.Sublist.slnil
  | m :: rest, p => by
    unfold performRound
    split
    · exact (performRound_sublist rest (p ++ m.provides)).cons₂ m
    · exact (performRound_sublist rest p).cons m

/-- The satisfied set after a round is the incoming one extended, in
placement order, by the provides of the placed methods. -/
theorem performRound_provides : ∀ (u : List ExtractorStep) (p : List String),
    (performRound p u).2 = p ++ (performRound p u).1.flatMap ExtractorStep.provides
  | [], p => by simp [performRound]
  | m :: rest, p => by
    unfold performRound
    split
    · rw [performRound_provides rest (p ++ m.provides)]
      simp [List.append_assoc]
    · exact performRound_provides rest p

/-- Within a round, every placed method's dependencies are satisfied by the
incoming set extended with the provides of methods placed earlier in the same
round. -/
theorem performRound_chainOk : ∀ (u : List ExtractorStep) (p : List String),
    ChainOk p (performRound p u).1
  | [], _ => trivial
  | m :: rest, p => by
    unfold performRound
    split
    · next hc =>
      refine ⟨?_, performRound_chainOk rest (p ++ m.provides)⟩
      intro d hd
      have := List.all_eq_true.mp hc d hd
      simpa using this
    · exact performRound_chainOk rest p

/-- When a round places nothing, every unprocessed method has a dependency
outside the satisfied set. -/
theorem performRound_empty_unsat : ∀ (u : List ExtractorStep) (p : List String),
    (performRound p u).1 = [] → ∀ m ∈ u, ∃ d ∈ m.dependencies, d ∉ p
  | [], _, _ => by intro m hm; cases hm
  | m :: rest, p, h => by
    unfold performRound at h
    split at h
    · cases h
    · next hc =>
      intro s hs
      rcases List.mem_cons.mp hs with rfl | hs2
      · rw [List.all_eq_true] at hc
        push_neg at hc
        rcases hc with ⟨d, hd, hcon⟩
        exact ⟨d, hd, by simpa using hcon⟩
      · exact performRound_empty_unsat rest p h s hs2

/-- Concatenating a valid scan with a valid continuation. -/
theorem ChainOk.append : ∀ {r l : List ExtractorStep} {p : List String},
    ChainOk p r → ChainOk (p ++ r.flatMap ExtractorStep.provides) l → ChainOk p (r ++ l)
  | [], l, p, _, h2 => by simpa using h2
  | m :: r, l, p, h1, h2 => by
    refine ⟨h1.1, ChainOk.append h1.2 ?_⟩
    have heq : p ++ (m :: r).flatMap ExtractorStep.provides =
        (p ++ m.provides) ++ r.flatMap ExtractorStep.provides := by
      simp [List.append_assoc]
    rwa [heq] at h2

/-- Every plan fragment the loop produces is a valid scan from the incoming
satisfied set. -/
theorem constructLoop_chainOk : ∀ (fuel : Nat) (u : List ExtractorStep) (p : List String),
    ChainOk p (constructLoop fuel u p).1
  | 0, _, _ => trivial
  | fuel + 1, u, p => by
    unfold constructLoop
    split
    · exact trivial
    · refine ChainOk.append (performRound_chainOk u p) ?_
      rw [← performRound_provides u p]
      exact constructLoop_chainOk fuel (u.diff (performRound p u).1) (performRound p u).2

/-- The final satisfied set is the provides of the produced plan, in order. -/
theorem constructLoop_provides : ∀ (fuel : Nat) (u : List ExtractorStep) (p : List String),
    (constructLoop fuel u p).2.2 = p ++ (constructLoop fuel u p).1.flatMap ExtractorStep.provides
  | 0, u, p => by simp [constructLoop]
  | fuel + 1, u, p => by
    unfold constructLoop
    split
    · simp
    · rw [constructLoop_provides fuel (u.diff (performRound p u).1) (performRound p u).2,
        performRound_provides u p]
      simp [List.append_assoc]

/-- The unprocessed list splits, up to permutation, into the produced plan
and the remainder. -/
theorem constructLoop_perm : ∀ (fuel : Nat) (u : List ExtractorStep) (p : List String),
    u.Perm ((constructLoop fuel u p).1 ++ (constructLoop fuel u p).2.1)
  | 0, u, p => by simp [constructLoop]
  | fuel + 1, u, p => by
    unfold constructLoop
    split
    · simp
    · have h0 := perm_append_diff_of_sublist (performRound_sublist u p)
      have h1 := constructLoop_perm fuel (u.diff (performRound p u).1) (performRound p u).2
      have h2 := h0.trans (h1.append_left (performRound p u).1)
      simpa [List.append_assoc] using h2

/-- With enough fuel, every method left unprocessed has a dependency outside
the final satisfied set (the loop only stops early on fuel exhaustion, which
`fuel > u.length` rules out). -/
theorem constructLoop_rem_unsat : ∀ (fuel : Nat) (u : List ExtractorStep) (p : List String),
    u.length < fuel →
    ∀ m ∈ (constructLoop fuel u p).2.1, ∃ d ∈ m.dependencies, d ∉ (constructLoop fuel u p).2.2
  | 0, u, _, hlt => absurd hlt (Nat.not_lt_zero _)
  | fuel + 1, u, p, hlt => by
    unfold constructLoop
    split
    · next he =>
      intro m hm
      exact performRound_empty_unsat u p (List.isEmpty_iff.mp he) m hm
    · next he =>
      have hlen := (perm_append_diff_of_sublist (performRound_sublist u p)).length_eq
      rw [List.length_append] at hlen
      have hne : (performRound p u).1 ≠ [] := fun hnil => he (by simp [hnil])
      have hpos : 0 < (performRound p u).1.length := List.length_pos.mpr hne
      exact constructLoop_rem_unsat fuel (u.diff (performRound p u).1) (performRound p u).2
        (by omega)

/-- Unfolding a valid scan at an index: each dependency of the step at
position `i` is either satisfied initially or provided by a step strictly
before position `i`. -/
theorem ChainOk.dep_mem_take : ∀ {l : List ExtractorStep} {p : List String}, ChainOk p l →
    ∀ (i : Nat) (hi : i < l.length), ∀ d ∈ (l.get ⟨i, hi⟩).dependencies,
      d ∈ p ∨ ∃ s ∈ l.take i, d ∈ s.provides
  | [], _, _, i, hi => absurd hi (by simp)
  | _ :: _, _, hc, 0, _ => fun d hd => Or.inl (hc.1 d hd)
  | m :: rest, p, hc, i + 1, hi => by
    intro d hd
    have step := ChainOk.dep_mem_take hc.2 i (by simpa using hi) d hd
    rcases step with hp | ⟨s, hs, hsp⟩
    · rcases List.mem_append.mp hp with hp1 | hp2
      · exact Or.inl hp1
      · refine Or.inr ⟨m, ?_, hp2⟩
        rw [List.take_succ_cons]
        exact List.mem_cons_self m _
    · refine Or.inr ⟨s, ?_, hsp⟩
      rw [List.take_succ_cons]
      exact List.mem_cons_of_mem m hs

/-- A successful Python list access bounds the index from below by `-len`. -/
theorem pyIndex_ok_lower_bound {α : Type} {l : List α} {i : Int} {v : α}
    (h : pyIndex l i = Except.ok v) : -(l.length : Int) ≤ i := by
  unfold pyIndex at h
  by_cases hi : i < 0
  · simp only [hi, if_true] at h
    by_cases hj : i + (l.length : Int) < 0
    · simp [hj] at h
    · omega
  · omega

/-- The instrumented NTO loop finishes — with the same outcome as the
uninstrumented one — whenever its budget is at least `orbit + len`
iterations. -/
theorem ntoLoopFuel_eq (mo : List ℚ) : ∀ (fuel : Nat) (orbit exci : Int) (c : ℚ)
    (acc : List (Int × Int × ℚ)), (orbit + (mo.length : Int)).toNat ≤ fuel →
    ntoLoopFuel mo fuel orbit exci c acc = some (ntoLoopGo mo orbit exci c acc) := by
  intro fuel
  induction fuel with
  | zero =>
    intro orbit exci c acc hle
    rw [ntoLoopFuel, ntoLoopGo]
    by_cases hcrit : c > NTO_CRITERIA
    · rw [if_pos hcrit, if_pos hcrit]
      cases hpy : pyIndex mo (orbit - 1) with
      | error e => rfl
      | ok v =>
        have hb := pyIndex_ok_lower_bound hpy
        exact absurd hle (by omega)
    · rw [if_neg hcrit, if_neg hcrit]
  | succ n ih =>
    intro orbit exci c acc hle
    rw [ntoLoopFuel, ntoLoopGo]
    by_cases hcrit : c > NTO_CRITERIA
    · rw [if_pos hcrit, if_pos hcrit]
      cases hpy : pyIndex mo (orbit - 1) with
      | error e => rfl
      | ok v =>
        have hb := pyIndex_ok_lower_bound hpy
        exact ih (orbit - 1) (exci + 1) (v * EV_TO_HARTREE)
          (acc ++ [(orbit + 1, exci + 1, c)]) (by omega)
    · rw [if_neg hcrit, if_neg hcrit]

/-- C1: for every execution plan `ExtractorBase._construct_method_list`
computes from a finite (duplicate-free) set of extractor steps, the plan
contains every step of the set exactly once, and every dependency of the
step at position `i` of the plan lies in the `provides` of a step strictly
earlier in the plan. -/
theorem C1_plan_complete_and_dependency_ordered (steps plan : List ExtractorStep)
    (hnd : steps.Nodup)
    (h : ExtractorBase.constructMethodList steps = Except.ok plan) :
    plan.Nodup ∧ (∀ s : ExtractorStep, s ∈ plan ↔ s ∈ steps) ∧
    ∀ (i : Nat) (hi : i < plan.length), ∀ d ∈ (plan.get ⟨i, hi⟩).dependencies,
      ∃ s ∈ plan.take i, d ∈ s.provides := by
  unfold ExtractorBase.constructMethodList at h
  split at h
  case h_2 => cases h
  case h_1 hrem =>
    have hplan : plan = (ExtractorBase.constructFull steps).1 :=
      (Except.ok.injEq _ _).mp h.symm
    have hperm : steps.Perm plan := by
      have hp := constructLoop_perm (steps.length + 1) steps []
      rw [ExtractorBase.constructFull] at hplan hrem
      rw [hrem, List.append_nil] at hp
      rw [hplan]
      exact hp
    have hchain : ChainOk [] plan := by
      rw [hplan, ExtractorBase.constructFull]
      exact constructLoop_chainOk (steps.length + 1) steps []
    refine ⟨hperm.nodup hnd, fun s => (hperm.mem_iff).symm, ?_⟩
    intro i hi d hd
    rcases hchain.dep_mem_take i hi d hd with hnil | hgood
    · exact absurd hnil (List.not_mem_nil d)
    · exact hgood

/-- C1 witness: the spec's P1 synthetic graph; the computed plan is
`[A, B, C]` and satisfies every conjunct of the claim. -/
theorem C1_witness :
    ([stepSynthA, stepSynthB, stepSynthC].Nodup ∧
      ExtractorBase.constructMethodList [stepSynthA, stepSynthB, stepSynthC] =
        Except.ok [stepSynthA, stepSynthB, stepSynthC]) ∧
    ([stepSynthA, stepSynthB, stepSynthC].Nodup ∧
      (∀ s : ExtractorStep, s ∈ [stepSynthA, stepSynthB, stepSynthC] ↔
        s ∈ [stepSynthA, stepSynthB, stepSynthC]) ∧
      ∀ (i : Nat) (hi : i < ([stepSynthA, stepSynthB, stepSynthC] : List ExtractorStep).length),
        ∀ d ∈ (([stepSynthA, stepSynthB, stepSynthC] : List ExtractorStep).get
            ⟨i, hi⟩).dependencies,
          ∃ s ∈ ([stepSynthA, stepSynthB, stepSynthC] : List ExtractorStep).take i,
            d ∈ s.provides) :=
  ⟨⟨by decide, by rfl⟩,
    C1_plan_complete_and_dependency_ordered [stepSynthA, stepSynthB, stepSynthC]
      [stepSynthA, stepSynthB, stepSynthC] (by decide) (by rfl)⟩

/-- C2 counterexample: with `A` (no dependencies, provides `x`) and `B`
(depends on `x`) both unprocessed and an empty satisfied set — the first
round of construction — the round places `B` even though no strictly prior
round provided `x`: the code updates the satisfied set inside the scan
(source line 142), so `B` is placed in the same round as, and because of,
`A`.  This refutes the claim that a step is placed only when its
dependencies were provided by strictly prior rounds. -/
theorem C2_counterexample :
    ¬ (∀ m ∈ (performRound [] [stepSynthA, stepSynthB]).1,
        ∀ d ∈ m.dependencies, d ∈ ([] : List String)) := by
  decide

/-- C2 amended: during a round the satisfied set is extended immediately as
each method is placed, so a placed method's dependencies need only be covered
by prior rounds together with the methods placed earlier in the *same* round
(`ChainOk`), and the set after the round is the incoming set extended with
the round's provides in placement order. -/
theorem C2_amended_satisfied_set_grows_during_round
    (u : List ExtractorStep) (p : List String) :
    ChainOk p (performRound p u).1 ∧
    (performRound p u).2 = p ++ (performRound p u).1.flatMap ExtractorStep.provides :=
  ⟨performRound_chainOk u p, performRound_provides u p⟩

/-- C3: whenever some step remains unplaced after a round that adds nothing,
plan construction fails: no plan is returned, and the raised error names
exactly the declared dependency keys that are not in the final satisfied
set; that error list is never empty.  (The loop itself is a total function,
so it cannot hang.) -/
theorem C3_resolution_failure_names_missing_keys (steps : List ExtractorStep)
    (h : (ExtractorBase.constructFull steps).2.1 ≠ []) :
    (∃ e, ExtractorBase.constructMethodList steps = Except.error e ∧ e ≠ [] ∧
      ∀ d, d ∈ e ↔ ((∃ m ∈ steps, d ∈ m.dependencies) ∧
        d ∉ (ExtractorBase.constructFull steps).2.2)) ∧
    ∀ plan, ExtractorBase.constructMethodList steps ≠ Except.ok plan := by
  have hmem : ∀ d, d ∈ missingDependencies steps (ExtractorBase.constructFull steps).2.2 ↔
      ((∃ m ∈ steps, d ∈ m.dependencies) ∧ d ∉ (ExtractorBase.constructFull steps).2.2) := by
    intro d
    simp [missingDependencies, List.mem_filter, List.mem_dedup, List.mem_flatMap]
  have herr : ExtractorBase.constructMethodList steps =
      Except.error (missingDependencies steps (ExtractorBase.constructFull steps).2.2) := by
    unfold ExtractorBase.constructMethodList
    split
    · next heq => exact absurd heq h
    · rfl
  refine ⟨⟨missingDependencies steps (ExtractorBase.constructFull steps).2.2, herr, ?_, hmem⟩,
    fun plan hok => by rw [herr] at hok; cases hok⟩
  rcases List.exists_mem_of_ne_nil _ h with ⟨m, hm⟩
  have hunsat := constructLoop_rem_unsat (steps.length + 1) steps []
    (Nat.lt_succ_self _) m hm
  rcases hunsat with ⟨d, hd, hdnot⟩
  have hmsteps : m ∈ steps := by
    have hp := constructLoop_perm (steps.length + 1) steps []
    exact hp.mem_iff.mpr (List.mem_append.mpr (Or.inr hm))
  exact List.ne_nil_of_mem ((hmem d).mpr ⟨⟨m, hmsteps, hd⟩, hdnot⟩)

/-- C3 witness: the spec's P2 cyclic graph (`A` needs `y` provides `x`, `B`
needs `x` provides `y`); both steps stay unprocessed and the error names
`y` and `x`. -/
theorem C3_witness :
    (ExtractorBase.constructFull [stepCycA, stepCycB]).2.1 ≠ [] ∧
    ((∃ e, ExtractorBase.constructMethodList [stepCycA, stepCycB] = Except.error e ∧ e ≠ [] ∧
      ∀ d, d ∈ e ↔ ((∃ m ∈ [stepCycA, stepCycB], d ∈ m.dependencies) ∧
        d ∉ (ExtractorBase.constructFull [stepCycA, stepCycB]).2.2)) ∧
    ∀ plan, ExtractorBase.constructMethodList [stepCycA, stepCycB] ≠ Except.ok plan) :=
  ⟨by decide, C3_resolution_failure_names_missing_keys [stepCycA, stepCycB] (by decide)⟩

/-- C4: a parsed document whose metadata success indicator is absent or false
makes `extract` fail with the computation-not-successful error for *every*
step set, cache state and step implementation: no step body can influence the
outcome, the cache is untouched, and no result mapping is produced. -/
theorem C4_success_gate_blocks_all_steps
    (run : ExtractorStep → ParsedDoc → ResultMap → Except RunError ResultMap)
    (steps : List ExtractorStep) (cache : Option (List ExtractorStep)) (p : ParsedDoc)
    (h : p.metadata = none ∨ ∃ md, p.metadata = some md ∧ md.success.getD false = false) :
    ExtractorBase.extract run steps cache p =
      (Except.error ExtractError.computationNotSuccessful, cache, false) := by
  have hs : ExtractorBase.isSuccess p = false := by
    unfold ExtractorBase.isSuccess
    rcases h with h | ⟨md, hmd, hmds⟩
    · rw [h]
    · rw [hmd]
      exact hmds
  unfold ExtractorBase.extract
  rw [hs]
  simp

/-- C4 witness: a document whose metadata dict lacks the `success` key. -/
theorem C4_witness :
    (noSuccessDoc.metadata = none ∨
      ∃ md, noSuccessDoc.metadata = some md ∧ md.success.getD false = false) ∧
    ExtractorBase.extract runWriteName [stepSynthA] none noSuccessDoc =
      (Except.error ExtractError.computationNotSuccessful, none, false) :=
  ⟨Or.inr ⟨⟨none⟩, rfl, rfl⟩,
    C4_success_gate_blocks_all_steps runWriteName [stepSynthA] none noSuccessDoc
      (Or.inr ⟨⟨none⟩, rfl, rfl⟩)⟩

/-- C5 (code bug): with `A` providing `x` and `B` depending on the missing
key `z`, the first `extract` call on a fresh instance raises the
dependency-resolution error naming `z`, but the partially built plan `[A]`
stays in `self._method_list`; `_all_methods` re-constructs only when
`self._method_list` is falsy, so the second `extract` call on the same
instance silently runs the strict subset `[A]` — its result mapping contains
only the key written by `A` — and reports that construction never ran,
instead of re-raising the error. -/
theorem C5_failed_construction_caches_partial_plan :
    (ExtractorBase.extract runWriteName [stepSynthA, stepMissB] none goodDoc).1 =
        Except.error (ExtractError.dependencyResolution ["z"]) ∧
    (ExtractorBase.extract runWriteName [stepSynthA, stepMissB] none goodDoc).2.1 =
        some [stepSynthA] ∧
    (ExtractorBase.extract runWriteName [stepSynthA, stepMissB] (some [stepSynthA]) goodDoc).1 =
        Except.ok [("A", Value.int 1)] ∧
    (ExtractorBase.extract runWriteName [stepSynthA, stepMissB] (some [stepSynthA]) goodDoc).2.2 =
        false :=
  ⟨rfl, rfl, rfl, rfl⟩

/-- A successful plan construction is what `_all_methods` computes and caches
on a fresh instance (cache `None`), marking that construction ran. -/
theorem ExtractorBase.allMethods_construct_ok (steps plan : List ExtractorStep)
    (h : ExtractorBase.constructMethodList steps = Except.ok plan) :
    ExtractorBase.allMethods steps none = (Except.ok plan, some plan, true) := by
  unfold ExtractorBase.constructMethodList at h
  revert h
  cases hrem : (ExtractorBase.constructFull steps).2.1 with
  | nil =>
    intro h
    have hfull : (ExtractorBase.constructFull steps).1 = plan := (Except.ok.injEq _ _).mp h
    unfold ExtractorBase.allMethods
    rw [hrem, hfull]
  | cons a r =>
    intro h
    cases h

/-- A non-empty cached plan is returned as is by `_all_methods`, without
reconstruction. -/
theorem ExtractorBase.allMethods_cached (steps : List ExtractorStep)
    (m0 : ExtractorStep) (rest : List ExtractorStep) :
    ExtractorBase.allMethods steps (some (m0 :: rest)) =
      (Except.ok (m0 :: rest), some (m0 :: rest), false) := rfl

/-- Unfolding `extract` on a passing document when `_all_methods` returns a
plan that runs to completion. -/
theorem ExtractorBase.extract_of_allMethods_ok
    (run : ExtractorStep → ParsedDoc → ResultMap → Except RunError ResultMap)
    (steps : List ExtractorStep) (cache : Option (List ExtractorStep)) (p : ParsedDoc)
    (plan : List ExtractorStep) (cache2 : Option (List ExtractorStep)) (ran : Bool)
    (r : ResultMap)
    (hs : ExtractorBase.isSuccess p = true)
    (ha : ExtractorBase.allMethods steps cache = (Except.ok plan, cache2, ran))
    (hr : runPlan run p plan [] = Except.ok r) :
    ExtractorBase.extract run steps cache p = (Except.ok r, cache2, ran) := by
  unfold ExtractorBase.extract
  rw [hs, ha]
  simp [hr]

/-- C7 counterexample: an extractor whose step set is empty — the bare
`ExtractorBase` has no extractor methods — is validly orderable (its plan is
`[]` and construction succeeds), yet the cached empty plan is Python-falsy,
so `_all_methods` re-runs plan construction on *every* call: the second
`extract` call still reports that construction ran.  This refutes the claim
that for every validly orderable step set the plan is computed once on the
first call and merely reused afterwards. -/
theorem C7_counterexample :
    ExtractorBase.constructMethodList [] = Except.ok [] ∧
    (ExtractorBase.extract runWriteName [] none goodDoc).2 = (some [], true) ∧
    (ExtractorBase.extract runWriteName []
      (ExtractorBase.extract runWriteName [] none goodDoc).2.1 goodDoc).2 = (some [], true) :=
  ⟨rfl, rfl, rfl⟩

/-- C7 amended: for every extractor whose step set yields a *non-empty* plan,
the plan is computed once, on the first `extract` call, and reused
thereafter: a first call on a fresh instance constructs and caches the plan,
a second call with another valid document performs no construction, runs the
identical plan in the identical order, and each call builds an independent
result mapping starting from the empty one. -/
theorem C7_amended_nonempty_plan_computed_once_reused
    (run : ExtractorStep → ParsedDoc → ResultMap → Except RunError ResultMap)
    (steps plan : List ExtractorStep) (m0 : ExtractorStep) (rest : List ExtractorStep)
    (p1 p2 : ParsedDoc) (r1 r2 : ResultMap)
    (hplan : ExtractorBase.constructMethodList steps = Except.ok plan)
    (hne : plan = m0 :: rest)
    (h1 : ExtractorBase.isSuccess p1 = true) (h2 : ExtractorBase.isSuccess p2 = true)
    (hr1 : runPlan run p1 plan [] = Except.ok r1)
    (hr2 : runPlan run p2 plan [] = Except.ok r2) :
    ExtractorBase.extract run steps none p1 = (Except.ok r1, some plan, true) ∧
    ExtractorBase.extract run steps (some plan) p2 = (Except.ok r2, some plan, false) := by
  constructor
  · exact ExtractorBase.extract_of_allMethods_ok run steps none p1 plan (some plan) true r1
      h1 (ExtractorBase.allMethods_construct_ok steps plan hplan) hr1
  · refine ExtractorBase.extract_of_allMethods_ok run steps (some plan) p2 plan (some plan)
      false r2 h2 ?_ hr2
    rw [hne]
    exact ExtractorBase.allMethods_cached steps m0 rest

/-- C7 witness: the P1 synthetic extractor, extracting twice from the same
instance with the same valid document. -/
theorem C7_witness :
    (ExtractorBase.constructMethodList [stepSynthA, stepSynthB, stepSynthC] =
        Except.ok [stepSynthA, stepSynthB, stepSynthC] ∧
      ExtractorBase.isSuccess goodDoc = true ∧
      runPlan runWriteName goodDoc [stepSynthA, stepSynthB, stepSynthC] [] =
        Except.ok [("A", Value.int 1), ("B", Value.int 1), ("C", Value.int 1)]) ∧
    ExtractorBase.extract runWriteName [stepSynthA, stepSynthB, stepSynthC] none goodDoc =
      (Except.ok [("A", Value.int 1), ("B", Value.int 1), ("C", Value.int 1)],
        some [stepSynthA, stepSynthB, stepSynthC], true) ∧
    ExtractorBase.extract runWriteName [stepSynthA, stepSynthB, stepSynthC]
        (some [stepSynthA, stepSynthB, stepSynthC]) goodDoc =
      (Except.ok [("A", Value.int 1), ("B", Value.int 1), ("C", Value.int 1)],
        some [stepSynthA, stepSynthB, stepSynthC], false) :=
  ⟨⟨rfl, rfl, rfl⟩,
    C7_amended_nonempty_plan_computed_once_reused runWriteName
      [stepSynthA, stepSynthB, stepSynthC] [stepSynthA, stepSynthB, stepSynthC]
      stepSynthA [stepSynthB, stepSynthC] goodDoc goodDoc
      [("A", Value.int 1), ("B", Value.int 1), ("C", Value.int 1)]
      [("A", Value.int 1), ("B", Value.int 1), ("C", Value.int 1)]
      rfl rfl rfl rfl rfl rfl⟩

/-- C6 counterexample: a successful extraction by the `GenericExtractor`
model whose result mapping does *not* contain the declared provides key
`atom_symbols`: `_extract_atom_data` declares `atom_symbols` and
`atom_numbers` but writes its data under the key `atoms`.  This refutes the
claim that the returned mapping contains every key declared in any step's
`provides`. -/
theorem C6_counterexample :
    ∃ m, (ExtractorBase.extract genericRun genericSteps none demoDoc).1 = Except.ok m ∧
      stepAtomData ∈ genericSteps ∧ "atom_symbols" ∈ stepAtomData.provides ∧
      dictGet m "atom_symbols" = none := by
  refine ⟨_, rfl, by decide, by decide, rfl⟩

/-- C6 amended: a successful extract call returns a mapping whose keys are
exactly those the step bodies write, each exactly once; `provides` names are
dependency tokens and need not occur as result keys — in `GenericExtractor`
the four declared keys `atom_symbols`, `atom_numbers`, `optimization` and
`atom_coordinates` stand for data stored under the written keys `atoms` and
`optimization_steps`, while every other declared provides key does appear in
the mapping. -/
theorem C6_amended_written_keys :
    ∃ m, (ExtractorBase.extract genericRun genericSteps none demoDoc).1 = Except.ok m ∧
      dictKeys m = ["atoms", "charge", "multiplicity", "num_atoms", "num_basis_sets",
        "num_electrons", "optimization_steps", "restricted", "scf_energy",
        "unpaired_electrons", "homo_index", "lumo_index", "excited_states", "mos"] ∧
      (dictKeys m).Nodup ∧
      ∀ k ∈ genericSteps.flatMap ExtractorStep.provides,
        k ∈ dictKeys m ∨
          k ∈ ["atom_symbols", "atom_numbers", "optimization", "atom_coordinates"] := by
  refine ⟨_, rfl, rfl, by decide, by decide⟩

/-- C8: on a restricted document exposing an energy list, the
molecular-orbital step converts each input energy `v` to exactly
`v * EV_TO_HARTREE`, with `EV_TO_HARTREE` exactly `1 / 27.21138505`; hence
each output differs from `v / 27.21138505` by zero, within the documented
tolerance of `1e-9`. -/
theorem C8_mo_energy_conversion (es : List ℚ) (t : ResultMap)
    (hres : dictGet t "restricted" = some (Value.bool true)) :
    GenericExtractor.runMos (mosDoc es) t =
      Except.ok (dictSet t "mos" (Value.dict (dictSet (dictSet [] "num_mos" Value.vnone)
        "energies" (Value.list (es.map (fun v => Value.rat (v * EV_TO_HARTREE))))))) ∧
    EV_TO_HARTREE = 1 / 27.21138505 ∧
    ∀ v ∈ es, |v * EV_TO_HARTREE - v / 27.21138505| ≤ 1 / 1000000000 := by
  refine ⟨?_, by norm_num [EV_TO_HARTREE], ?_⟩
  · unfold GenericExtractor.runMos targetGet
    rw [hres]
    rfl
  · intro v hv
    have hzero : v * EV_TO_HARTREE - v / 27.21138505 = 0 := by
      rw [EV_TO_HARTREE]
      ring
    rw [hzero]
    norm_num

/-- C8 witness: the spec's literal input `[1.0, 2.0]`. -/
theorem C8_witness :
    dictGet (dictSet [] "restricted" (Value.bool true)) "restricted" =
        some (Value.bool true) ∧
    (GenericExtractor.runMos (mosDoc [1, 2]) (dictSet [] "restricted" (Value.bool true)) =
        Except.ok (dictSet (dictSet [] "restricted" (Value.bool true)) "mos"
          (Value.dict (dictSet (dictSet [] "num_mos" Value.vnone)
            "energies" (Value.list (([(1 : ℚ), 2]).map
              (fun v => Value.rat (v * EV_TO_HARTREE))))))) ∧
      EV_TO_HARTREE = 1 / 27.21138505 ∧
      ∀ v ∈ [(1 : ℚ), 2], |v * EV_TO_HARTREE - v / 27.21138505| ≤ 1 / 1000000000) :=
  ⟨rfl, C8_mo_energy_conversion [1, 2] (dictSet [] "restricted" (Value.bool true)) rfl⟩

/-- C9 counterexample: `NTOExtractor._extract_nto_coefficients` checks only
`moenergies` before reading `parsed.homos`: on a successful document that
exposes `moenergies` but not `homos`, extraction fails with an
`AttributeError` on `homos` — the step read an attribute whose presence it
never checked, refuting the claim that the scheduler and every step test
attribute presence before every read. -/
theorem C9_counterexample :
    (ExtractorBase.extract ntoRun ntoSteps none noHomosDoc).1 =
      Except.error (ExtractError.stepError (RunError.attributeError "homos")) := rfl

/-- C9 amended: the guarded reads behave as claimed — with `moenergies`
absent the NTO step returns `nto_contributions = None` without touching
`homos` — but four reads are guarded only by a *different* attribute's
presence and raise `AttributeError` when their own attribute is missing:
`homos` in `_extract_nto_coefficients` (guard: `moenergies`), `atomcoords`
and `converged_geometries` in `_extractor_optimizations` (guard: absence
resp. presence of `optstatus`), and `etsyms` (with `etoscs`, `etsecs`
following it) in `_extractor_excited_states` (guard: `etenergies`). -/
theorem C9_amended_unguarded_attribute_reads :
    NTOExtractor.extractNtoCoefficients goodDoc [] =
        Except.ok [("nto_contributions", Value.vnone)] ∧
    NTOExtractor.extractNtoCoefficients noHomosDoc [] =
        Except.error (RunError.attributeError "homos") ∧
    GenericExtractor.runOptimizations goodDoc (dictSet [] "atoms" (Value.dict [])) =
        Except.error (RunError.attributeError "atomcoords") ∧
    GenericExtractor.runOptimizations
        { metadata := some ⟨some true⟩, optstatus := some [1] }
        (dictSet [] "atoms" (Value.dict [])) =
        Except.error (RunError.attributeError "converged_geometries") ∧
    GenericExtractor.runExcitedStates
        { metadata := some ⟨some true⟩, etenergies := some [1] }
        (dictSet [] "optimization_steps" (Value.int 0)) =
        Except.error (RunError.attributeError "etsyms") :=
  ⟨rfl, rfl, rfl, rfl, rfl⟩

/-- C10: the NTO contribution loop terminates within `homo + 1 + len`
iterations: given that budget the instrumented loop finishes with exactly
the outcome of the (total, hence terminating) loop — either a normal exit
once the contribution drops to the criteria, or the `IndexError` raised when
the strictly decreasing orbital index falls below `-len` — for every energy
list, start index and accumulator. -/
theorem C10_nto_loop_bounded_termination (mo : List ℚ) (homo exci : Int) (c : ℚ)
    (acc : List (Int × Int × ℚ)) :
    ntoLoopFuel mo ((homo + 1 + (mo.length : Int)).toNat) homo exci c acc =
      some (ntoLoopGo mo homo exci c acc) :=
  ntoLoopFuel_eq mo _ homo exci c acc (by omega)
